import Mathlib

/-!
# WinPassword — verification of the password-database core

Shallow embedding of the WinPassword password manager
(`database/password_db.py`, `utils/auth.py`, `utils/config.py`,
`utils/cloud_sync.py`).  Container files are modelled as lists of
byte cells (`List Nat`); the third-party cryptographic and JSON
libraries are modelled symbolically (see the doc comments on
`Encryption.generate_key`, `fernetEncrypt`, `json_dumps`), while every
function of the repository itself is translated line by line from the
Python source.
-/

/-- A password record, as stored in `self.data["passwords"]`
(dict with keys id/title/username/password/url/notes/category and the
two timestamps).  `created_at`/`updated_at` are ISO-8601 timestamps in
the source; they are represented here by their chronological value as a
natural number (ISO comparison via `datetime.fromisoformat` is
order-isomorphic to this). -/
structure PwdRecord where
  id : String
  title : String
  uname : String
  pwd : String
  url : String
  notes : String
  category : String
  created_at : Nat
  updated_at : Nat
deriving DecidableEq, Repr

/-- The vault payload `self.data` of `PasswordDatabase`
(keys: categories, passwords, last_modified, version, totp_secret,
username). -/
structure VaultData where
  categories : List String
  passwords : List PwdRecord
  last_modified : Option String
  version : String
  totp_secret : Option String
  username : String
deriving DecidableEq, Repr

/-- A decrypted Fernet payload: either a serialized vault (the output
of `json.dumps(self.data)`) or some other string (a plaintext that is
not valid vault JSON). -/
inductive PlainText where
  | vault (v : VaultData)
  | raw (s : String)
deriving DecidableEq, Repr

/-- Modelled from the spec: the key returned by
`Encryption.generate_key` (PBKDF2-HMAC-SHA256, 100000 iterations,
urlsafe-base64 encoded).  The derivation is deterministic in the
master secret and the salt, so the derived key is represented
symbolically by that pair. -/
structure DerivedKey where
  secret : String
  keySalt : List Nat
deriving DecidableEq, Repr

/-! ## Byte-level codec

An injective, executable encoding of keys and payloads into byte
cells, used to give the symbolic Fernet token a concrete byte-string
form (so that container files are plain `List Nat` and file lengths
are meaningful). -/

/-- Encode a string as a length cell followed by one cell per character. -/
def encString (s : String) : List Nat :=
  s.length :: s.data.map Char.toNat

/-- Encode a byte list as a length cell followed by the bytes. -/
def encBytes (l : List Nat) : List Nat :=
  l.length :: l

/-- Encode an optional string with a presence tag. -/
def encOptString : Option String → List Nat
  | none => [0]
  | some s => 1 :: encString s

/-- Encode a list: a count cell, then the encodings of the elements. -/
def encListOf (enc : α → List Nat) (xs : List α) : List Nat :=
  xs.length :: (xs.map enc).flatten

/-- Encode a password record field by field. -/
def encRecord (r : PwdRecord) : List Nat :=
  encString r.id ++ encString r.title ++ encString r.uname ++
  encString r.pwd ++ encString r.url ++ encString r.notes ++
  encString r.category ++ [r.created_at, r.updated_at]

/-- Encode a vault payload field by field. -/
def encVault (v : VaultData) : List Nat :=
  encListOf encString v.categories ++ encListOf encRecord v.passwords ++
  encOptString v.last_modified ++ encString v.version ++
  encOptString v.totp_secret ++ encString v.username

/-- Encode a payload with a constructor tag. -/
def encPlain : PlainText → List Nat
  | .vault v => 0 :: encVault v
  | .raw s => 1 :: encString s

/-- Encode a derived key. -/
def encKey (k : DerivedKey) : List Nat :=
  encString k.secret ++ encBytes k.keySalt

/-- Decode a string; returns the string and the remaining input. -/
def decString : List Nat → Option (String × List Nat)
  | [] => none
  | n :: rest =>
    if n ≤ rest.length then
      some (String.mk ((rest.take n).map Char.ofNat), rest.drop n)
    else none

/-- Decode a byte list; returns the bytes and the remaining input. -/
def decBytes : List Nat → Option (List Nat × List Nat)
  | [] => none
  | n :: rest =>
    if n ≤ rest.length then some (rest.take n, rest.drop n) else none

/-- Decode an optional string. -/
def decOptString : List Nat → Option (Option String × List Nat)
  | [] => none
  | 0 :: rest => some (none, rest)
  | 1 :: rest => (decString rest).map fun p => (some p.1, p.2)
  | _ :: _ => none

/-- Decode `n` consecutive values with the element decoder `dec`. -/
def decN (dec : List Nat → Option (α × List Nat)) :
    Nat → List Nat → Option (List α × List Nat)
  | 0, l => some ([], l)
  | n + 1, l =>
    (dec l).bind fun p =>
      (decN dec n p.2).map fun q => (p.1 :: q.1, q.2)

/-- Decode a counted list. -/
def decListOf (dec : List Nat → Option (α × List Nat)) :
    List Nat → Option (List α × List Nat)
  | [] => none
  | n :: rest => decN dec n rest

/-- Decode a single cell. -/
def decCell : List Nat → Option (Nat × List Nat)
  | [] => none
  | n :: rest => some (n, rest)

/-- Decode a password record. -/
def decRecord (l : List Nat) : Option (PwdRecord × List Nat) :=
  (decString l).bind fun i =>
  (decString i.2).bind fun t =>
  (decString t.2).bind fun u =>
  (decString u.2).bind fun pw =>
  (decString pw.2).bind fun ur =>
  (decString ur.2).bind fun no =>
  (decString no.2).bind fun c =>
  (decCell c.2).bind fun ca =>
  (decCell ca.2).map fun ua =>
    (⟨i.1, t.1, u.1, pw.1, ur.1, no.1, c.1, ca.1, ua.1⟩, ua.2)

/-- Decode a vault payload. -/
def decVault (l : List Nat) : Option (VaultData × List Nat) :=
  (decListOf decString l).bind fun cs =>
  (decListOf decRecord cs.2).bind fun ps =>
  (decOptString ps.2).bind fun lm =>
  (decString lm.2).bind fun ve =>
  (decOptString ve.2).bind fun ts =>
  (decString ts.2).map fun un =>
    (⟨cs.1, ps.1, lm.1, ve.1, ts.1, un.1⟩, un.2)

/-- Decode a payload. -/
def decPlain : List Nat → Option (PlainText × List Nat)
  | [] => none
  | 0 :: rest => (decVault rest).map fun p => (.vault p.1, p.2)
  | 1 :: rest => (decString rest).map fun p => (.raw p.1, p.2)
  | _ :: _ => none

/-- Decode a derived key. -/
def decKey (l : List Nat) : Option (DerivedKey × List Nat) :=
  (decString l).bind fun s =>
  (decBytes s.2).map fun b => (⟨s.1, b.1⟩, b.2)

/-- Decode a whole Fernet token; fails unless the input is consumed
exactly. -/
def decodeToken (bs : List Nat) : Option (DerivedKey × PlainText) :=
  (decKey bs).bind fun k =>
  (decPlain k.2).bind fun p =>
  if p.2 = [] then some (k.1, p.1) else none

/-! ## Symbolic cryptography and serialization (third-party libraries) -/

namespace Encryption

/-- Modelled from the spec: `Encryption.generate_key(master_password, salt)`
(`auth.py` lines 110-125) wraps PBKDF2-HMAC-SHA256 (100000 iterations,
urlsafe-base64 output) from the third-party `cryptography` library.  With
an explicit salt the derivation is deterministic in (secret, salt), so the
derived key is represented symbolically by that pair.  (The random-salt
branch `salt=None` only draws a fresh 16-byte salt and recurses.) -/
def generate_key (master_password : String) (salt : List Nat) : DerivedKey :=
  ⟨master_password, salt⟩

/-- `Encryption.encrypt` (`auth.py` lines 127-131): `Fernet(key).encrypt`
on the encoded plaintext.  Modelled from the spec on the Fernet side: the
result is a byte token from which decryption under the same derived key
recovers the plaintext exactly, and which no other key decrypts. -/
def encrypt (data : PlainText) (key : DerivedKey) : List Nat :=
  encKey key ++ encPlain data

/-- `Encryption.decrypt` (`auth.py` lines 133-141): `Fernet(key).decrypt`
inside try/except, returning `None` (here `none`) when the token is
malformed or was not produced under `key`. -/
def decrypt (encrypted_data : List Nat) (key : DerivedKey) :
    Option PlainText :=
  match decodeToken encrypted_data with
  | some kp => if kp.1 = key then some kp.2 else none
  | none => none

end Encryption

/-- Modelled from the spec: `json.dumps(self.data, ensure_ascii=False)` —
the vault payload serialized to its JSON text (the `json` module is
library code, so serialization is kept symbolic). -/
def json_dumps (v : VaultData) : PlainText := .vault v

/-- Modelled from the spec: `json.loads` applied to a decrypted payload,
succeeding exactly on serialized vault payloads. -/
def json_loads : PlainText → Option VaultData
  | .vault v => some v
  | .raw _ => none

/-- Python's `str.strip()` with no argument: remove leading and
trailing whitespace characters. -/
def pyStrip (s : String) : String :=
  ⟨((s.data.dropWhile Char.isWhitespace).reverse.dropWhile
      Char.isWhitespace).reverse⟩

/-- Python truthiness of the decrypted payload string: `not
decrypted_data` is true for the empty string (a serialized dict is never
empty, so only a raw payload can be falsy). -/
def PlainText.isFalsy : PlainText → Bool
  | .raw s => s = ""
  | .vault _ => false

/-! ## The password database -/

/-- The error codes assigned to `self.last_error` in `password_db.py`. -/
inductive DbError where
  | fileAbsent
  | dataCorrupted
  | invalidKey
  | permissionDenied
  | unknownError
deriving DecidableEq, Repr

/-- The state of a `PasswordDatabase` object that the database logic
reads and writes (`__init__`, `password_db.py` lines 19-42): the derived
key, the salt, the vault payload `self.data` and the error code.  The
configuration, path and sync-manager fields live in the surrounding
models. -/
structure PasswordDatabase where
  key : Option DerivedKey
  salt : Option (List Nat)
  data : VaultData
  last_error : Option DbError
deriving DecidableEq, Repr

/-- The vault payload a freshly constructed (uninitialized) database
carries (`__init__`, lines 24-31). -/
def initVaultData : VaultData :=
  { categories := [], passwords := [], last_modified := none,
    version := "1.0", totp_secret := none, username := "" }

/-- A freshly constructed `PasswordDatabase` (`__init__`). -/
def PasswordDatabase.init : PasswordDatabase :=
  { key := none, salt := none, data := initVaultData, last_error := none }

/-- `self.default_categories` (`password_db.py` lines 32-34). -/
def default_categories : List String :=
  ["网站", "应用", "邮箱", "银行", "证件", "其他"]

/-- The fallback category that receives orphaned records
("其他", i.e. "Other"; `password_db.py` line 412). -/
def fallback_category : String := "其他"

/-- The vault payload installed by `PasswordDatabase.create`
(lines 70-77). -/
def create_data (now : String) (totp_secret : Option String)
    (username : String) : VaultData :=
  { categories := default_categories, passwords := [],
    last_modified := some now, version := "1.0",
    totp_secret := totp_secret, username := username }

/-- The core of `PasswordDatabase.open` (`password_db.py` lines
115-210) once the container file has been located and read into
`file`.  Mutations of `self` are threaded in source order: the error
state is cleared (118-119); the size check (159-163); the salt split
(166-167); the key/salt assignment (170); decryption with the Python
falsy test on the result (173-178); the JSON parse assigning
`self.data` (181-187); finally the stored-TOTP comparison (190-204).
Returns the resulting object state and `open`'s return value. -/
def open_core (db : PasswordDatabase) (file : List Nat)
    (master_password : String) : PasswordDatabase × Bool :=
  let db := { db with last_error := none }
  if file.length < 16 then
    ({ db with last_error := some .dataCorrupted }, false)
  else
    let saltBytes := file.take 16
    let content := file.drop 16
    let k := Encryption.generate_key master_password saltBytes
    let db := { db with key := some k, salt := some saltBytes }
    match Encryption.decrypt content k with
    | none => ({ db with last_error := some .invalidKey }, false)
    | some plain =>
      if plain.isFalsy then
        ({ db with last_error := some .invalidKey }, false)
      else
        match json_loads plain with
        | none => ({ db with last_error := some .dataCorrupted }, false)
        | some d =>
          let db := { db with data := d }
          match d.totp_secret with
          | some stored =>
            if stored ≠ "" then
              if pyStrip master_password ≠ pyStrip stored then
                ({ db with last_error := some .invalidKey }, false)
              else (db, true)
            else (db, true)
          | none => (db, true)

/-- `PasswordDatabase.save` (`password_db.py` lines 228-259) with the
file system abstracted: `now` is the current timestamp, `writeOk` tells
whether writing the container file succeeds, `backupOk` whether the
backup copy inside `_create_backup` (261-287) succeeds, and `pushOk`
whether the best-effort `sync_to_remote` call (252-253) succeeds.
`_create_backup` wraps all its work in try/except and only logs a
failure, and `save` discards `sync_to_remote`'s return value, so
neither flag can influence the result.  Returns the state, the bytes
written to the container (when the write happened), and `save`'s
return value. -/
def save_core (db : PasswordDatabase) (now : String)
    (writeOk backupOk pushOk : Bool) :
    PasswordDatabase × Option (List Nat) × Bool :=
  let db := { db with data := { db.data with last_modified := some now } }
  match db.key, db.salt with
  | some k, some s =>
    let encrypted := Encryption.encrypt (json_dumps db.data) k
    if writeOk then (db, some (s ++ encrypted), true)
    else (db, none, false)
  | _, _ => (db, none, false)

/-- `PasswordDatabase.add_category` (lines 396-401) on the vault data.
The Bool tells whether the mutation happened and `save` is invoked (the
`else` branch returns True without saving). -/
def add_category_data (v : VaultData) (category : String) :
    VaultData × Bool :=
  if category ∉ v.categories then
    ({ v with categories := v.categories ++ [category] }, true)
  else (v, false)

/-- `PasswordDatabase.delete_category` (lines 403-415) on the vault
data: `list.remove` drops the first occurrence of the category, member
records are reassigned to the fallback category, and the source then
calls `save`.  The Bool tells whether the category was found (the
`else` branch returns False without mutating or saving). -/
def delete_category_data (v : VaultData) (category : String) :
    VaultData × Bool :=
  if category ∈ v.categories then
    ({ v with
        categories := v.categories.erase category,
        passwords := v.passwords.map fun p =>
          if p.category = category then
            { p with category := fallback_category }
          else p }, true)
  else (v, false)

/-- `PasswordDatabase.rename_category` (lines 417-434) on the vault
data: `list.index` finds the first occurrence of the old name, which is
overwritten in place; member records are retagged. -/
def rename_category_data (v : VaultData) (old_name new_name : String) :
    VaultData × Bool :=
  if old_name ∉ v.categories then (v, false)
  else if new_name ∈ v.categories then (v, false)
  else
    ({ v with
        categories := v.categories.set (v.categories.indexOf old_name) new_name,
        passwords := v.passwords.map fun p =>
          if p.category = old_name then { p with category := new_name }
          else p }, true)

/-- `PasswordDatabase.add_password` (lines 312-324) on the vault data:
the record receives the fresh id `str(int(time.time()*1000))` and the
current time as both timestamps (id generation and clock are
parameters), and is appended; the source then calls `save`. -/
def add_password_data (v : VaultData) (password_data : PwdRecord)
    (fresh_id : String) (now : Nat) : VaultData :=
  { v with passwords := v.passwords ++
      [{ password_data with
          id := fresh_id,
          created_at := now,
          updated_at := now }] }

/-- The scan loop of `PasswordDatabase.update_password` (lines
326-341): the first record whose id matches is replaced by
`password_data` carrying the original id and creation time and a fresh
`updated_at`, and `save` is called (`some`); if the loop falls through
the method returns False without mutating or saving (`none`). -/
def update_password_core (l : List PwdRecord) (password_id : String)
    (password_data : PwdRecord) (now : Nat) : Option (List PwdRecord) :=
  match l with
  | [] => none
  | p :: ps =>
    if p.id = password_id then
      some ({ password_data with
              id := password_id,
              created_at := p.created_at,
              updated_at := now } :: ps)
    else
      (update_password_core ps password_id password_data now).map (p :: ·)

/-- The scan loop of `PasswordDatabase.delete_password` (lines
343-353): the first record whose id matches is removed and `save` is
called (`some`); otherwise the method returns False without mutating
or saving (`none`). -/
def delete_password_core (l : List PwdRecord) (password_id : String) :
    Option (List PwdRecord) :=
  match l with
  | [] => none
  | p :: ps =>
    if p.id = password_id then some ps
    else (delete_password_core ps password_id).map (p :: ·)

/-- The category half of `PasswordDatabase._merge_data` (lines
492-495): each imported category not already present is appended,
membership being checked against the list as it grows. -/
def mergeCats (live imported : List String) : List String :=
  imported.foldl (fun acc c => if c ∉ acc then acc ++ [c] else acc) live

/-- The inner loop of `_merge_data` (lines 504-514): find the first
record carrying the imported record's id and replace it exactly when
the imported `updated_at` is strictly later. -/
def replaceFirst (l : List PwdRecord) (p : PwdRecord) : List PwdRecord :=
  match l with
  | [] => []
  | q :: qs =>
    if q.id = p.id then
      (if q.updated_at < p.updated_at then p else q) :: qs
    else q :: replaceFirst qs p

/-- One iteration of the outer loop of `_merge_data` (lines 500-514);
`existing_ids` is the id set computed once, before the loop, from the
live records (line 498). -/
def mergeStep (existing_ids : List String) (cur : List PwdRecord)
    (p : PwdRecord) : List PwdRecord :=
  if p.id ∉ existing_ids then cur ++ [p] else replaceFirst cur p

/-- The password half of `_merge_data` (lines 497-514). -/
def mergePwds (live imported : List PwdRecord) : List PwdRecord :=
  imported.foldl (mergeStep (live.map (·.id))) live

/-- `PasswordDatabase._merge_data` (lines 490-514) on the vault data. -/
def merge_data (v imported : VaultData) : VaultData :=
  { v with categories := mergeCats v.categories imported.categories,
           passwords := mergePwds v.passwords imported.passwords }

/-! ## Cloud synchronisation and path resolution -/

/-- The remote side of the file system as seen by
`CloudSyncManager.sync_to_remote`: the remote target file and its
temporary sibling `<target>.tmp` (present ↦ contents). -/
structure RemoteFS where
  target : Option (List Nat)
  temp : Option (List Nat)
deriving DecidableEq, Repr

/-- The failure-injection points of the copy-then-replace sequence in
`sync_to_remote` (`cloud_sync.py` lines 122-153): the copy to
`<target>.tmp` can raise (caught at lines 131-133); an exception can
hit after the temp file is complete but before `os.remove(remote_path)`
runs (caught at 145-147); it can hit between `os.remove` and
`os.rename` (also caught at 145-147); or nothing fails. -/
inductive FailPoint where
  | duringCopy
  | afterTempBeforeRemove
  | afterRemoveBeforeRename
  | noFailure
deriving DecidableEq, Repr

/-- The temp-write/replace sequence of `sync_to_remote` (lines
122-153) with a failure injected at `fail`; `localContent` is the
content of the local database file being pushed.  The remove-then-
rename replacement (lines 136-147) deletes any existing target before
renaming the temp file over it.  Returns the remote file system after
the attempt and the method's return value. -/
def pushReplace (fs : RemoteFS) (localContent : List Nat)
    (fail : FailPoint) : RemoteFS × Bool :=
  match fail with
  | .duringCopy => ({ fs with temp := none }, false)
  | .afterTempBeforeRemove => ({ fs with temp := some localContent }, false)
  | .afterRemoveBeforeRename =>
      ({ target := none, temp := some localContent }, false)
  | .noFailure => ({ target := some localContent, temp := none }, true)

/-- The cloud section of the configuration (`config.py` lines 37-49),
restricted to the keys `get_effective_database_path` reads. -/
structure CloudConfig where
  enabled : Bool
  storageType : String
  local_cache_path : String
  remote_path : String
  network_drive_path : String
deriving DecidableEq, Repr

/-- `os.path.basename` for POSIX-style paths: the suffix after the
last separator. -/
def basename (p : String) : String :=
  ⟨(p.data.reverse.takeWhile (fun c => c != '/')).reverse⟩

/-- `os.path.join` for a relative second component. -/
def joinPath (a b : String) : String := a ++ "/" ++ b

/-- `Config.get_effective_database_path` (`config.py` lines 131-168).
`pathExists` abstracts `os.path.exists`, `config_dir` is the
`~/.passwordmanager` directory; `os.makedirs` on the cache directory is
a side effect that does not influence the returned path.  Both storage-
type branches return only when the configured folder is non-empty and
currently exists; every other enabled configuration falls through to
the cache check, and an empty cache setting falls through to the
configured (or default) database path. -/
def get_effective_database_path (database_path : String)
    (cc : CloudConfig) (pathExists : String → Bool)
    (config_dir : String) : String :=
  let db_filename :=
    if database_path ≠ "" then basename database_path else "passwords.db"
  let defaultPath :=
    if database_path ≠ "" then database_path
    else joinPath config_dir db_filename
  let fromCache :=
    if cc.local_cache_path ≠ "" then joinPath cc.local_cache_path db_filename
    else defaultPath
  if cc.enabled then
    if cc.storageType = "network_drive" then
      if cc.network_drive_path ≠ "" ∧ pathExists cc.network_drive_path then
        joinPath cc.network_drive_path db_filename
      else fromCache
    else if cc.storageType = "baidu_netdisk" ∨ cc.storageType = "onedrive"
        ∨ cc.storageType = "dropbox" then
      if cc.remote_path ≠ "" ∧ pathExists cc.remote_path then
        joinPath cc.remote_path db_filename
      else fromCache
    else fromCache
  else defaultPath

/-! ## Concrete sample inputs (used in witnesses and counterexamples) -/

/-- A 16-byte all-zero salt. -/
def sampleSalt : List Nat := List.replicate 16 0

/-- A concrete vault payload whose stored second-factor secret is
"ABC". -/
def sampleVault : VaultData :=
  { categories := [fallback_category], passwords := [],
    last_modified := none, version := "1.0",
    totp_secret := some "ABC", username := "" }

/-- A concrete container file: `sampleSalt` followed by `sampleVault`
encrypted under the key derived from the secret "XYZ" and that salt. -/
def sampleFile : List Nat :=
  sampleSalt ++ Encryption.encrypt (json_dumps sampleVault)
    (Encryption.generate_key "XYZ" sampleSalt)

/-- A concrete record constructor for sample vaults. -/
def mkRecord (i c : String) (upd : Nat) : PwdRecord :=
  { id := i, title := "t", uname := "u", pwd := "p", url := "", notes := "",
    category := c, created_at := 0, updated_at := upd }

/-- A cloud configuration with the network drive absent and no local
cache folder configured. -/
def sampleCloudNoCache : CloudConfig :=
  { enabled := true, storageType := "network_drive",
    local_cache_path := "", remote_path := "",
    network_drive_path := "/mnt/net" }

/-- A cloud configuration with the network drive absent and a local
cache folder configured. -/
def sampleCloudWithCache : CloudConfig :=
  { enabled := true, storageType := "network_drive",
    local_cache_path := "/home/u/.cache", remote_path := "",
    network_drive_path := "/mnt/net" }

/-- Spec-side definition (following the specification's words, for the
C5 refinement statement): the record an identifier maps to after a
merge — the imported record with the same id wins exactly when its
last-updated timestamp is strictly later; otherwise the existing record
is kept. -/
def specPatch (imported : List PwdRecord) (r : PwdRecord) : PwdRecord :=
  match imported.find? (fun q => q.id == r.id) with
  | some q => if r.updated_at < q.updated_at then q else r
  | none => r

/-- Spec-side definition (following the specification's words): the
imported records whose identifier is new to the live record list, in
imported order. -/
def specNewRecords (live imported : List PwdRecord) : List PwdRecord :=
  imported.filter (fun q => decide (q.id ∉ live.map (·.id)))

/-! ## Codec round-trip lemmas -/

theorem decString_enc (s : String) (r : List Nat) :
    decString (encString s ++ r) = some (s, r) := by
  have hlen : s.length = (s.data.map Char.toNat).length := by
    rw [List.length_map]; rfl
  simp only [encString, List.cons_append, decString]
  rw [if_pos (by rw [List.length_append, ← hlen]; exact Nat.le_add_right _ _)]
  rw [hlen, List.take_left, List.drop_left, List.map_map]
  have hcomp : Char.ofNat ∘ Char.toNat = id := funext fun c => Char.ofNat_toNat c
  rw [hcomp, List.map_id]

theorem decBytes_enc (b : List Nat) (r : List Nat) :
    decBytes (encBytes b ++ r) = some (b, r) := by
  simp only [encBytes, List.cons_append, decBytes]
  rw [if_pos (by simp), List.take_left, List.drop_left]

theorem decOptString_enc (o : Option String) (r : List Nat) :
    decOptString (encOptString o ++ r) = some (o, r) := by
  cases o with
  | none => simp [encOptString, decOptString]
  | some s => simp [encOptString, decOptString, decString_enc]

theorem decCell_enc (n : Nat) (r : List Nat) :
    decCell (n :: r) = some (n, r) := rfl

theorem decN_enc (dec : List Nat → Option (α × List Nat))
    (enc : α → List Nat)
    (h : ∀ a r, dec (enc a ++ r) = some (a, r)) (xs : List α)
    (r : List Nat) :
    decN dec xs.length ((xs.map enc).flatten ++ r) = some (xs, r) := by
  induction xs generalizing r with
  | nil => simp [decN]
  | cons x xs ih =>
    simp only [List.map_cons, List.flatten_cons, List.length_cons,
      List.append_assoc, decN, h x, Option.some_bind, ih r,
      Option.map_some']

theorem decListOf_enc (dec : List Nat → Option (α × List Nat))
    (enc : α → List Nat)
    (h : ∀ a r, dec (enc a ++ r) = some (a, r)) (xs : List α)
    (r : List Nat) :
    decListOf dec (encListOf enc xs ++ r) = some (xs, r) := by
  simp only [encListOf, List.cons_append, decListOf]
  exact decN_enc dec enc h xs r

theorem decRecord_enc (p : PwdRecord) (r : List Nat) :
    decRecord (encRecord p ++ r) = some (p, r) := by
  simp only [encRecord, List.append_assoc, List.cons_append,
    List.nil_append, decRecord, decString_enc, Option.some_bind,
    decCell_enc, Option.map_some']

theorem decVault_enc (v : VaultData) (r : List Nat) :
    decVault (encVault v ++ r) = some (v, r) := by
  simp only [encVault, List.append_assoc, decVault,
    decListOf_enc decString encString decString_enc,
    decListOf_enc decRecord encRecord decRecord_enc,
    decOptString_enc, decString_enc, Option.some_bind, Option.map_some']

theorem decPlain_enc (p : PlainText) (r : List Nat) :
    decPlain (encPlain p ++ r) = some (p, r) := by
  cases p with
  | vault v => simp [encPlain, decPlain, decVault_enc]
  | raw s => simp [encPlain, decPlain, decString_enc]

theorem decKey_enc (k : DerivedKey) (r : List Nat) :
    decKey (encKey k ++ r) = some (k, r) := by
  simp only [encKey, List.append_assoc, decKey, decString_enc,
    Option.some_bind, decBytes_enc, Option.map_some']

theorem decodeToken_enc (k : DerivedKey) (p : PlainText) :
    decodeToken (encKey k ++ encPlain p) = some (k, p) := by
  have hp : decPlain (encPlain p) = some (p, []) := by
    have := decPlain_enc p []
    rwa [List.append_nil] at this
  simp only [decodeToken, decKey_enc, Option.some_bind, hp]
  simp

/-! ## Claim theorems -/

/-- C2: for every secret S, every salt, and every vault payload V,
decrypting the encryption of the serialized V under the key derived
from (S, salt) with that same derived key returns exactly the
serialized V. -/
theorem C2_encrypt_decrypt_roundtrip (S : String) (salt : List Nat)
    (V : VaultData) :
    Encryption.decrypt
      (Encryption.encrypt (json_dumps V) (Encryption.generate_key S salt))
      (Encryption.generate_key S salt) = some (json_dumps V) := by
  simp [Encryption.encrypt, Encryption.decrypt, decodeToken_enc]

/-- C6 (counterexample): with an existing remote target `[1, 2, 3]`, a
failure injected after `os.remove(remote_path)` but before `os.rename`
— which is a failure after the temp file has been written and before
the rename completes — does not leave the pre-existing remote target
intact: the target has been deleted. -/
theorem C6_push_atomicity_counterexample :
    ¬ ((pushReplace ⟨some [1, 2, 3], none⟩ [9]
          .afterRemoveBeforeRename).1.target = some [1, 2, 3]) := by
  decide

/-- C6 (amended): a push failure during the copy to the temp file, or
after the temp file is written but before the removal of the
pre-existing remote target, leaves the target intact with push
reporting failure; but a failure after the removal and before the
rename completes leaves the remote target absent — the pre-existing
content is lost — with push still reporting failure. -/
theorem C6_push_failure_window (fs : RemoteFS) (content : List Nat) :
    ((pushReplace fs content .duringCopy).1.target = fs.target ∧
      (pushReplace fs content .duringCopy).2 = false) ∧
    ((pushReplace fs content .afterTempBeforeRemove).1.target = fs.target ∧
      (pushReplace fs content .afterTempBeforeRemove).2 = false) ∧
    ((pushReplace fs content .afterRemoveBeforeRename).1.target = none ∧
      (pushReplace fs content .afterRemoveBeforeRename).2 = false) :=
  ⟨⟨rfl, rfl⟩, ⟨rfl, rfl⟩, rfl, rfl⟩

/-- C7: a container file shorter than the 16-byte salt fails to open
with the DataCorrupted error recorded, and no file shorter than 17
bytes ever opens successfully (a 16-byte file leaves an empty
ciphertext, which never decrypts). -/
theorem C7_min_container_size (db : PasswordDatabase) (file : List Nat)
    (master : String) :
    (file.length < 16 →
      open_core db file master =
        ({ db with last_error := some .dataCorrupted }, false)) ∧
    (file.length < 17 → (open_core db file master).2 = false) := by
  constructor
  · intro h
    simp [open_core, if_pos h]
  · intro h
    by_cases h16 : file.length < 16
    · simp [open_core, if_pos h16]
    · have hlen : file.length = 16 := by omega
      have hdrop : file.drop 16 = [] := by
        have hd := List.drop_length file
        rwa [hlen] at hd
      have hdec : ∀ k, Encryption.decrypt [] k = none := fun k => rfl
      simp [open_core, if_neg h16, hdrop, hdec]

/-- C7 (witness): the empty file fails as DataCorrupted, and a file of
exactly 16 zero bytes does not open. -/
theorem C7_min_container_size_witness :
    open_core PasswordDatabase.init [] "s" =
      ({ PasswordDatabase.init with last_error := some .dataCorrupted },
        false) ∧
    (open_core PasswordDatabase.init (List.replicate 16 0) "s").2 = false :=
  ⟨(C7_min_container_size PasswordDatabase.init [] "s").1 (by decide),
   (C7_min_container_size PasswordDatabase.init
      (List.replicate 16 0) "s").2 (by decide)⟩

/-- C8: when the container write succeeds, `save` returns success for
every combination of backup and push outcomes — a failing best-effort
push and a failing backup are both swallowed — and the bytes written to
the authoritative path are the salt followed by the encrypted
serialized vault, independent of those outcomes. -/
theorem C8_save_success_independent (db : PasswordDatabase) (now : String)
    (k : DerivedKey) (s : List Nat) (backupOk pushOk : Bool)
    (hk : db.key = some k) (hs : db.salt = some s) :
    (save_core db now true backupOk pushOk).2.2 = true ∧
    (save_core db now true backupOk pushOk).2.1 =
      some (s ++ Encryption.encrypt
        (json_dumps { db.data with last_modified := some now }) k) := by
  simp [save_core, hk, hs]

/-- C8 (witness): a concrete database saved while both the backup and
the push fail. -/
theorem C8_save_success_independent_witness :
    (save_core { PasswordDatabase.init with
          key := some ⟨"XYZ", sampleSalt⟩,
          salt := some sampleSalt } "t" true false false).2.2 = true ∧
    (save_core { PasswordDatabase.init with
          key := some ⟨"XYZ", sampleSalt⟩,
          salt := some sampleSalt } "t" true false false).2.1 =
      some (sampleSalt ++ Encryption.encrypt
        (json_dumps { initVaultData with last_modified := some "t" })
        ⟨"XYZ", sampleSalt⟩) :=
  C8_save_success_independent _ "t" _ _ false false rfl rfl

/-- C10: for an identifier not among the stored records' ids, both the
update scan and the delete scan fall through (`none`): the methods
return False, the record list is not mutated, and `save` — hence the
backup and the replication push — is never invoked. -/
theorem C10_unknown_id_no_mutation (l : List PwdRecord)
    (password_id : String) (pd : PwdRecord) (now : Nat)
    (h : password_id ∉ l.map (·.id)) :
    update_password_core l password_id pd now = none ∧
    delete_password_core l password_id = none := by
  induction l with
  | nil => exact ⟨rfl, rfl⟩
  | cons p ps ih =>
    simp only [List.map_cons, List.mem_cons, not_or] at h
    obtain ⟨h1, h2⟩ := h
    have hne : ¬ p.id = password_id := fun he => h1 he.symm
    obtain ⟨ih1, ih2⟩ := ih h2
    constructor
    · simp [update_password_core, if_neg hne, ih1]
    · simp [delete_password_core, if_neg hne, ih2]

/-- C10 (witness): updating or deleting the unknown id "2" in a
one-record store does nothing. -/
theorem C10_unknown_id_no_mutation_witness :
    update_password_core [mkRecord "1" "其他" 0] "2"
      (mkRecord "x" "其他" 5) 7 = none ∧
    delete_password_core [mkRecord "1" "其他" 0] "2" = none :=
  C10_unknown_id_no_mutation _ "2" _ 7 (by decide)

/-- C1 (counterexample): opening `sampleFile` (stored second-factor
secret "ABC") with the supplied secret "XYZ" fails with InvalidKey as
the claim says, but the in-memory vault does not remain uninitialized:
the decrypted payload from the file is retained in `self.data` after
the failed open. -/
theorem C1_counterexample :
    (open_core PasswordDatabase.init sampleFile "XYZ").2 = false ∧
    (open_core PasswordDatabase.init sampleFile "XYZ").1.last_error
      = some .invalidKey ∧
    ¬ (open_core PasswordDatabase.init sampleFile "XYZ").1.data
        = initVaultData := by
  decide

/-- C1 (amended): whenever the container decrypts and parses
successfully but the stored non-empty second-factor secret differs
(after trimming surrounding whitespace) from the supplied secret,
`open` fails with InvalidKey — but the in-memory vault does not remain
uninitialized: the decrypted payload is retained in `self.data`, and
the derived key and file salt are retained as well. -/
theorem C1_open_mismatch_retains_state (db : PasswordDatabase)
    (file : List Nat) (master : String) (d : VaultData) (stored : String)
    (hlen : ¬ file.length < 16)
    (hdec : Encryption.decrypt (file.drop 16)
        (Encryption.generate_key master (file.take 16))
      = some (json_dumps d))
    (hts : d.totp_secret = some stored)
    (hne : stored ≠ "")
    (hmm : pyStrip master ≠ pyStrip stored) :
    open_core db file master =
      ({ key := some (Encryption.generate_key master (file.take 16)),
         salt := some (file.take 16),
         data := d,
         last_error := some .invalidKey }, false) := by
  simp only [open_core, if_neg hlen, hdec, json_dumps, PlainText.isFalsy,
    json_loads, hts, Bool.false_eq_true, if_false, if_pos hne, if_pos hmm]

/-- C1 (witness): the amended statement at the concrete container
`sampleFile` and supplied secret "XYZ". -/
theorem C1_open_mismatch_retains_state_witness :
    open_core PasswordDatabase.init sampleFile "XYZ" =
      ({ key := some (Encryption.generate_key "XYZ" (sampleFile.take 16)),
         salt := some (sampleFile.take 16),
         data := sampleVault,
         last_error := some .invalidKey }, false) :=
  C1_open_mismatch_retains_state PasswordDatabase.init sampleFile "XYZ"
    sampleVault "ABC" (by decide) (by decide) rfl (by decide) (by decide)

/-- C3 (counterexample): `delete_category` applied to the fallback
category itself removes it — starting from a freshly created vault,
deleting "其他" leaves a category list without the fallback, so the
fallback does not exist in every reachable vault state. -/
theorem C3_fallback_counterexample :
    fallback_category ∉
      (delete_category_data (create_data "t" none "")
        fallback_category).1.categories := by
  decide

/-- C3 (amended): the fallback category "其他" is present in a freshly
created vault and is preserved by deleting any other category, but it
is not protected: `delete_category` applied to the fallback itself
removes it from a duplicate-free category list. -/
theorem C3_fallback_amended :
    (∀ now ts un,
      fallback_category ∈ (create_data now ts un).categories) ∧
    (∀ v c, c ≠ fallback_category → fallback_category ∈ v.categories →
      fallback_category ∈ (delete_category_data v c).1.categories) ∧
    (∀ v : VaultData, v.categories.Nodup →
      fallback_category ∈ v.categories →
      fallback_category ∉
        (delete_category_data v fallback_category).1.categories) := by
  refine ⟨fun now ts un =>
    show fallback_category ∈ default_categories by decide, ?_, ?_⟩
  · intro v c hne hmem
    unfold delete_category_data
    by_cases hc : c ∈ v.categories
    · rw [if_pos hc]
      exact (List.mem_erase_of_ne hne.symm).mpr hmem
    · rw [if_neg hc]
      exact hmem
  · intro v hnd hmem
    unfold delete_category_data
    rw [if_pos hmem]
    exact hnd.not_mem_erase

/-- C3 (witness): the amended statement at a freshly created vault —
the fallback is present, survives deleting "银行", and is removed by
deleting the fallback itself. -/
theorem C3_fallback_amended_witness :
    fallback_category ∈ (create_data "t" none "").categories ∧
    fallback_category ∈
      (delete_category_data (create_data "t" none "") "银行").1.categories ∧
    fallback_category ∉
      (delete_category_data (create_data "t" none "")
        fallback_category).1.categories :=
  ⟨C3_fallback_amended.1 "t" none "",
   C3_fallback_amended.2.1 _ "银行" (by decide) (by decide),
   C3_fallback_amended.2.2 _ (by decide) (by decide)⟩

/-- C4: deleting a category C present in a duplicate-free category
list removes C from the list (keeping every other category), sets the
category of exactly the records whose category equals C to the
fallback category, leaves every other record entirely unchanged, and
proceeds to save. -/
theorem C4_delete_category (v : VaultData) (c : String)
    (hnd : v.categories.Nodup) (hc : c ∈ v.categories) :
    c ∉ (delete_category_data v c).1.categories ∧
    (∀ d, d ≠ c →
      (d ∈ (delete_category_data v c).1.categories ↔ d ∈ v.categories)) ∧
    (delete_category_data v c).1.passwords =
      v.passwords.map (fun r =>
        if r.category = c then { r with category := fallback_category }
        else r) ∧
    (delete_category_data v c).2 = true := by
  unfold delete_category_data
  rw [if_pos hc]
  exact ⟨hnd.not_mem_erase, fun d hd => List.mem_erase_of_ne hd, rfl, rfl⟩

/-- C4 (witness): deleting "银行" from a vault with records in "银行"
and "邮箱" reassigns the first record to the fallback and leaves the
second unchanged, and "银行" disappears from the category list. -/
theorem C4_delete_category_witness :
    "银行" ∉ (delete_category_data
      { initVaultData with
          categories := ["银行", "邮箱", "其他"],
          passwords := [mkRecord "1" "银行" 0, mkRecord "2" "邮箱" 0] }
      "银行").1.categories ∧
    (∀ d, d ≠ "银行" →
      (d ∈ (delete_category_data
        { initVaultData with
            categories := ["银行", "邮箱", "其他"],
            passwords := [mkRecord "1" "银行" 0, mkRecord "2" "邮箱" 0] }
        "银行").1.categories ↔ d ∈ ["银行", "邮箱", "其他"])) ∧
    (delete_category_data
      { initVaultData with
          categories := ["银行", "邮箱", "其他"],
          passwords := [mkRecord "1" "银行" 0, mkRecord "2" "邮箱" 0] }
      "银行").1.passwords =
      [mkRecord "1" "银行" 0, mkRecord "2" "邮箱" 0].map (fun r =>
        if r.category = "银行" then { r with category := fallback_category }
        else r) ∧
    (delete_category_data
      { initVaultData with
          categories := ["银行", "邮箱", "其他"],
          passwords := [mkRecord "1" "银行" 0, mkRecord "2" "邮箱" 0] }
      "银行").2 = true :=
  C4_delete_category _ "银行" (by decide) (by decide)

/-- C9 (counterexample): with cloud sync enabled for a network drive
whose folder does not exist and no local cache folder configured, path
resolution returns the configured database path itself, not a local
cache folder joined with the base filename. -/
theorem C9_counterexample :
    get_effective_database_path "/home/u/pw.db" sampleCloudNoCache
      (fun _ => false) "/cfg" = "/home/u/pw.db" ∧
    ¬ get_effective_database_path "/home/u/pw.db" sampleCloudNoCache
        (fun _ => false) "/cfg"
      = joinPath sampleCloudNoCache.local_cache_path
          (basename "/home/u/pw.db") := by
  constructor
  · rfl
  · decide

/-- C9 (amended): with cloud sync enabled, a network-drive or
remote-folder storage kind whose configured folder does not currently
exist, and a non-empty local cache folder configured, path resolution
returns the cache folder (which the code creates if absent) joined
with the database's base filename; when no cache folder is configured
it falls back to the configured database path instead. -/
theorem C9_cache_fallback (database_path config_dir : String)
    (cc : CloudConfig) (pathExists : String → Bool)
    (hen : cc.enabled = true)
    (hcache : cc.local_cache_path ≠ "")
    (hkind :
      (cc.storageType = "network_drive" ∧
        pathExists cc.network_drive_path = false) ∨
      ((cc.storageType = "baidu_netdisk" ∨ cc.storageType = "onedrive" ∨
          cc.storageType = "dropbox") ∧
        pathExists cc.remote_path = false)) :
    get_effective_database_path database_path cc pathExists config_dir =
      joinPath cc.local_cache_path
        (if database_path ≠ "" then basename database_path
         else "passwords.db") := by
  unfold get_effective_database_path
  rcases hkind with ⟨ht, hm⟩ | ⟨ht, hm⟩
  · simp only [hen, ht, hm, if_pos hcache]
    simp
  · have hne : ¬ cc.storageType = "network_drive" := by
      rcases ht with h | h | h <;> rw [h] <;> decide
    simp only [hen, hm, if_pos hcache, if_neg hne, if_pos ht]
    simp [ht]

/-- C9 (witness): the amended statement at a concrete configuration
with a missing network drive and a configured cache folder. -/
theorem C9_cache_fallback_witness :
    get_effective_database_path "/home/u/pw.db" sampleCloudWithCache
      (fun _ => false) "/cfg"
      = joinPath "/home/u/.cache" "pw.db" :=
  C9_cache_fallback "/home/u/pw.db" "/cfg" sampleCloudWithCache
    (fun _ => false) rfl (by decide) (Or.inl ⟨rfl, rfl⟩)

/-! ## Merge lemmas (towards C5) -/

theorem specPatch_id (seen : List PwdRecord) (r : PwdRecord) :
    (specPatch seen r).id = r.id := by
  unfold specPatch
  cases hf : seen.find? (fun q => q.id == r.id) with
  | none => rfl
  | some q =>
    have hq : q.id = r.id := by
      have := List.find?_some hf
      simpa using this
    by_cases hu : r.updated_at < q.updated_at <;> simp [hu, hq]

theorem map_id_specPatch (seen live : List PwdRecord) :
    (live.map (specPatch seen)).map (·.id) = live.map (·.id) := by
  rw [List.map_map]
  exact List.map_congr_left fun r _ => specPatch_id seen r

theorem find?_id_eq_none (seen : List PwdRecord) (x : String)
    (h : x ∉ seen.map (·.id)) :
    seen.find? (fun q => q.id == x) = none := by
  rw [List.find?_eq_none]
  intro q hq hpq
  have : q.id = x := by simpa using hpq
  exact h (List.mem_map.mpr ⟨q, hq, this⟩)

theorem specPatch_append_ne (seen : List PwdRecord) (p r : PwdRecord)
    (h : ¬ p.id = r.id) :
    specPatch (seen ++ [p]) r = specPatch seen r := by
  unfold specPatch
  rw [List.find?_append]
  cases hf : seen.find? (fun q => q.id == r.id) with
  | some q => rfl
  | none =>
    have hb : (p.id == r.id) = false := by simpa using h
    simp [List.find?, hb]

theorem specPatch_append_eq (seen : List PwdRecord) (p r : PwdRecord)
    (hnone : seen.find? (fun q => q.id == r.id) = none)
    (h : p.id = r.id) :
    specPatch (seen ++ [p]) r =
      if r.updated_at < p.updated_at then p else r := by
  unfold specPatch
  rw [List.find?_append, hnone]
  simp [List.find?, h]

theorem specPatch_nil (r : PwdRecord) : specPatch [] r = r := rfl

theorem replaceFirst_append_left (xs ys : List PwdRecord) (p : PwdRecord)
    (h : p.id ∈ xs.map (·.id)) :
    replaceFirst (xs ++ ys) p = replaceFirst xs p ++ ys := by
  induction xs with
  | nil => simp at h
  | cons q qs ih =>
    by_cases hq : q.id = p.id
    · simp [replaceFirst, hq]
    · have hmem : p.id ∈ qs.map (·.id) := by
        simp only [List.map_cons, List.mem_cons] at h
        rcases h with h | h
        · exact absurd h.symm hq
        · exact h
      simp [replaceFirst, hq, ih hmem]

theorem replaceFirst_map_specPatch (live seen : List PwdRecord)
    (p : PwdRecord) (hnd : (live.map (·.id)).Nodup)
    (hseen : p.id ∉ seen.map (·.id)) :
    replaceFirst (live.map (specPatch seen)) p =
      live.map (specPatch (seen ++ [p])) := by
  induction live with
  | nil => rfl
  | cons r rest ih =>
    simp only [List.map_cons] at hnd ⊢
    have hnd' : (rest.map (·.id)).Nodup := hnd.of_cons
    have hhd : r.id ∉ rest.map (·.id) := (List.nodup_cons.mp hnd).1
    by_cases hr : r.id = p.id
    · have hnone : seen.find? (fun q => q.id == r.id) = none :=
        find?_id_eq_none seen r.id (by rw [hr]; exact hseen)
      have hpsr : specPatch seen r = r := by
        unfold specPatch
        rw [hnone]
      have hcond : (specPatch seen r).id = p.id := by
        rw [specPatch_id, hr]
      have hhead : specPatch (seen ++ [p]) r =
          if r.updated_at < p.updated_at then p else r :=
        specPatch_append_eq seen p r hnone hr.symm
      have htail : rest.map (specPatch (seen ++ [p]))
          = rest.map (specPatch seen) := by
        apply List.map_congr_left
        intro q hq
        apply specPatch_append_ne
        intro he
        apply hhd
        rw [hr, he]
        exact List.mem_map.mpr ⟨q, hq, rfl⟩
      simp only [replaceFirst, hcond, if_true, hpsr, hhead, htail]
      rw [if_pos hr]
    · have hcond : ¬ (specPatch seen r).id = p.id := by
        rw [specPatch_id]
        exact fun he => hr he
      have hhead : specPatch (seen ++ [p]) r = specPatch seen r :=
        specPatch_append_ne seen p r (fun he => hr he.symm)
      simp [replaceFirst, hcond, hhead, ih hnd']

theorem map_specPatch_append_not_mem (live seen : List PwdRecord)
    (p : PwdRecord) (h : p.id ∉ live.map (·.id)) :
    live.map (specPatch (seen ++ [p])) = live.map (specPatch seen) := by
  apply List.map_congr_left
  intro r hr
  apply specPatch_append_ne
  intro he
  apply h
  rw [he]
  exact List.mem_map.mpr ⟨r, hr, rfl⟩

theorem specNewRecords_append_mem (live seen : List PwdRecord)
    (p : PwdRecord) (h : p.id ∈ live.map (·.id)) :
    specNewRecords live (seen ++ [p]) = specNewRecords live seen := by
  unfold specNewRecords
  rw [List.filter_append]
  simp [List.filter, h]

theorem specNewRecords_append_not_mem (live seen : List PwdRecord)
    (p : PwdRecord) (h : p.id ∉ live.map (·.id)) :
    specNewRecords live (seen ++ [p]) = specNewRecords live seen ++ [p] := by
  unfold specNewRecords
  rw [List.filter_append]
  simp [List.filter, h]

theorem mem_mergeCats (a b : List String) (c : String) :
    c ∈ mergeCats a b ↔ c ∈ a ∨ c ∈ b := by
  induction b generalizing a with
  | nil => simp [mergeCats]
  | cons x xs ih =>
    have hstep : mergeCats a (x :: xs)
        = mergeCats (if x ∉ a then a ++ [x] else a) xs := rfl
    rw [hstep, ih]
    by_cases hx : x ∈ a
    · simp only [hx, not_true_eq_false, if_false, List.mem_cons]
      constructor
      · rintro (h | h)
        · exact Or.inl h
        · exact Or.inr (Or.inr h)
      · rintro (h | h | h)
        · exact Or.inl h
        · exact Or.inl (h ▸ hx)
        · exact Or.inr h
    · simp only [hx, not_false_eq_true, if_true, List.mem_append,
        List.mem_singleton, List.mem_cons]
      tauto

theorem mergePwds_invariant (live todo : List PwdRecord) :
    ∀ seen, (live.map (·.id)).Nodup →
    (((seen ++ todo).map (·.id)).Nodup) →
    List.foldl (mergeStep (live.map (·.id)))
        (live.map (specPatch seen) ++ specNewRecords live seen) todo
      = live.map (specPatch (seen ++ todo)) ++
          specNewRecords live (seen ++ todo) := by
  induction todo with
  | nil =>
    intro seen _ _
    simp
  | cons p todo ih =>
    intro seen hl hst
    have hassoc : seen ++ p :: todo = (seen ++ [p]) ++ todo := by
      simp
    have hst' : (((seen ++ [p]) ++ todo).map (·.id)).Nodup := by
      rwa [← hassoc]
    have hpseen : p.id ∉ seen.map (·.id) := by
      intro hmem
      rw [List.map_append] at hst
      rcases List.nodup_append.mp hst with ⟨_, _, hdisj⟩
      exact hdisj hmem (by simp)
    simp only [List.foldl_cons]
    by_cases hp : p.id ∈ live.map (·.id)
    · have hstep : mergeStep (live.map (·.id))
          (live.map (specPatch seen) ++ specNewRecords live seen) p
          = replaceFirst
              (live.map (specPatch seen) ++ specNewRecords live seen) p := by
        unfold mergeStep
        rw [if_neg (by simpa using hp)]
      rw [hstep,
        replaceFirst_append_left _ _ _ (by rw [map_id_specPatch]; exact hp),
        replaceFirst_map_specPatch live seen p hl hpseen,
        ← specNewRecords_append_mem live seen p hp,
        ih (seen ++ [p]) hl hst', hassoc]
    · have hstep : mergeStep (live.map (·.id))
          (live.map (specPatch seen) ++ specNewRecords live seen) p
          = (live.map (specPatch seen) ++ specNewRecords live seen) ++ [p] := by
        unfold mergeStep
        rw [if_pos hp]
      rw [hstep, List.append_assoc,
        ← specNewRecords_append_not_mem live seen p hp,
        ← map_specPatch_append_not_mem live seen p hp,
        ih (seen ++ [p]) hl hst', hassoc]

/-- C5: merging an imported vault into the live vault unions the
categories by name; and, when record identifiers are duplicate-free on
each side, the merged record list is exactly the live records — each
replaced by the imported record of the same identifier precisely when
that one's last-updated timestamp is strictly later, and kept unchanged
when it is earlier or equal — followed by the imported records whose
identifier was not present, in imported order. -/
theorem C5_merge_semantics (live imp : VaultData)
    (hl : (live.passwords.map (·.id)).Nodup)
    (hi : (imp.passwords.map (·.id)).Nodup) :
    (∀ c, c ∈ (merge_data live imp).categories ↔
      c ∈ live.categories ∨ c ∈ imp.categories) ∧
    (merge_data live imp).passwords =
      live.passwords.map (specPatch imp.passwords) ++
        specNewRecords live.passwords imp.passwords := by
  constructor
  · intro c
    exact mem_mergeCats live.categories imp.categories c
  · show mergePwds live.passwords imp.passwords = _
    have h0 := mergePwds_invariant live.passwords imp.passwords []
      hl (by simpa using hi)
    have hmap : live.passwords.map (specPatch []) = live.passwords := by
      have : ∀ r ∈ live.passwords, specPatch [] r = r :=
        fun r _ => specPatch_nil r
      rw [List.map_congr_left this]
      simp
    rw [hmap] at h0
    simpa [mergePwds, specNewRecords] using h0

/-- C5 (witness): merging a concrete imported vault — record "1" has a
strictly later timestamp and replaces the live one, record "2" is older
and the live one is kept, record "3" is new and appended, and the
categories are unioned. -/
theorem C5_merge_semantics_witness :
    (∀ c, c ∈ (merge_data
        { initVaultData with
            categories := ["网站"],
            passwords := [mkRecord "1" "网站" 5, mkRecord "2" "网站" 5] }
        { initVaultData with
            categories := ["银行", "网站"],
            passwords := [mkRecord "1" "网站" 9, mkRecord "2" "网站" 3,
              mkRecord "3" "银行" 1] }).categories ↔
      c ∈ ["网站"] ∨ c ∈ ["银行", "网站"]) ∧
    (merge_data
        { initVaultData with
            categories := ["网站"],
            passwords := [mkRecord "1" "网站" 5, mkRecord "2" "网站" 5] }
        { initVaultData with
            categories := ["银行", "网站"],
            passwords := [mkRecord "1" "网站" 9, mkRecord "2" "网站" 3,
              mkRecord "3" "银行" 1] }).passwords =
      [mkRecord "1" "网站" 5, mkRecord "2" "网站" 5].map
        (specPatch [mkRecord "1" "网站" 9, mkRecord "2" "网站" 3,
          mkRecord "3" "银行" 1]) ++
        specNewRecords [mkRecord "1" "网站" 5, mkRecord "2" "网站" 5]
          [mkRecord "1" "网站" 9, mkRecord "2" "网站" 3,
            mkRecord "3" "银行" 1] :=
  C5_merge_semantics
    { initVaultData with
        categories := ["网站"],
        passwords := [mkRecord "1" "网站" 5, mkRecord "2" "网站" 5] }
    { initVaultData with
        categories := ["银行", "网站"],
        passwords := [mkRecord "1" "网站" 9, mkRecord "2" "网站" 3,
          mkRecord "3" "银行" 1] }
    (by decide) (by decide)
